import Mathlib

/-!
Verification development for the campaign outlier dashboard
(src/anomalytest.py).  The statistics pipeline is embedded shallowly:
rows of the loaded "Calcs" table (after the dropna on required fields)
become `Record`s over exact rationals, the per-retailer z-score pass
(`detect_outliers`), the issue labeller (`label_issues`), the fix
suggester (`suggest_fix`), and the rolling mean/MAD anomaly smoother
are translated function by function.  IEEE-float special values that
the code can produce (NaN from 0/0 or a missing cell, signed infinity
from x/0) are modelled explicitly by the carrier `FVal`, so that the
flagging behaviour of Python comparisons against NaN/inf is preserved.
-/

/-- The five tracked metrics, in the order of `metric_cols` (line 47). -/
inductive Metric : Type
  | CTR | CVR | Revenue | ASP | CPO
deriving DecidableEq, Fintype

/-- Outlier flag values produced on line 55; Python's `None` is `Option.none`. -/
inductive OFlag : Type
  | High | Low
deriving DecidableEq, Fintype

/-- One row of the table after `pd.read_excel` + `dropna(subset=[...])`
(lines 38-42): all required fields present.  Numeric cells are exact
rationals; the parsed date is an abstract integer timestamp. -/
structure Record where
  date : Int
  retailer : String
  lineItem : String
  ctr : ℚ
  cvr : ℚ
  revenue : ℚ
  costs : ℚ
  orders : ℚ
deriving DecidableEq

/-- Column-name string of a metric, as used in f-strings of the source. -/
def metricName : Metric → String
  | .CTR => "CTR"
  | .CVR => "CVR"
  | .Revenue => "Revenue"
  | .ASP => "ASP"
  | .CPO => "CPO"

/-- `metric_cols = ["CTR", "CVR", "Revenue", "ASP", "CPO"]` (line 47). -/
def metricList : List Metric := [.CTR, .CVR, .Revenue, .ASP, .CPO]

/-- Line 43: `ASP = Revenue / Orders if Orders > 0 else np.nan`. -/
def aspOf (r : Record) : Option ℚ :=
  if r.orders > 0 then some (r.revenue / r.orders) else none

/-- Line 44: `CPO = Costs / Orders if Orders > 0 else np.nan`. -/
def cpoOf (r : Record) : Option ℚ :=
  if r.orders > 0 then some (r.costs / r.orders) else none

/-- The cell of a record in a metric column; `none` is a NaN cell. -/
def metricVal (r : Record) : Metric → Option ℚ
  | .CTR => some r.ctr
  | .CVR => some r.cvr
  | .Revenue => some r.revenue
  | .ASP => aspOf r
  | .CPO => cpoOf r

/-- The non-missing values of a metric column over a group of records
(pandas `mean`/`std` skip NaN cells). -/
def groupVals (g : List Record) (m : Metric) : List ℚ :=
  g.filterMap fun r => metricVal r m

/-- Arithmetic mean of a list of values. -/
def listMean (l : List ℚ) : ℚ := l.sum / l.length

/-- `Series.mean()`: NaN on an all-NaN column, else the mean of the
non-missing values. -/
def sampleMean (l : List ℚ) : Option ℚ :=
  if l.length = 0 then none else some (listMean l)

/-- The square of `Series.std()` (ddof = 1): NaN unless at least two
non-missing values are present, else the sample variance.  The standard
deviation itself is `Real.sqrt` of this value. -/
def sampleVar (l : List ℚ) : Option ℚ :=
  if 2 ≤ l.length then
    some ((l.map fun x => (x - listMean l) ^ 2).sum / ((l.length : ℚ) - 1))
  else none

/-- Carrier for the value of a z-score cell: a finite float, NaN, or a
signed infinity — the values `(g[col] - mean) / std` can take in IEEE
arithmetic. -/
inductive FVal : Type
  | fin (x : ℝ)
  | nan
  | posInf
  | negInf

/-- Line 54: `(g[col] - mean) / std` for one cell, with IEEE semantics:
a NaN cell, a NaN mean or a NaN std gives NaN; division by a zero std
gives NaN on a zero numerator and a signed infinity otherwise; the
generic case is the finite value `(v - mean) / sqrt variance`. -/
noncomputable def zscore (l : List ℚ) (v : Option ℚ) : FVal :=
  match v with
  | none => .nan
  | some x =>
    match sampleMean l, sampleVar l with
    | some m, some s2 =>
      if s2 = 0 then
        if x = m then .nan else if x > m then .posInf else .negInf
      else .fin (((x - m : ℚ) : ℝ) / Real.sqrt (s2 : ℝ))
    | _, _ => .nan

/-- Line 55: `"High" if z > 2 else "Low" if z < -2 else None`, with
Python comparison semantics on the special values (`nan > 2` and
`nan < -2` are both false; `inf > 2` is true; `-inf < -2` is true). -/
noncomputable def flagOf : FVal → Option OFlag
  | .fin x => if x > 2 then some .High else if x < -2 then some .Low else none
  | .nan => none
  | .posInf => some .High
  | .negInf => some .Low

/-- A record annotated with its z-score and flag columns, as one row of
the dataframe returned by `detect_outliers`. -/
structure ORecord where
  row : Record
  z : Metric → FVal
  flag : Metric → Option OFlag

/-- Lines 51-56: annotate every record of one retailer group with
z-scores and flags computed from that group's own columns. -/
noncomputable def annotateGroup (g : List Record) : List ORecord :=
  g.map fun r =>
    { row := r
      z := fun m => zscore (groupVals g m) (metricVal r m)
      flag := fun m => flagOf (zscore (groupVals g m) (metricVal r m)) }

/-- The sorted, duplicate-free retailer keys of `data.groupby("Retailer")`. -/
def retailerKeys (data : List Record) : List String :=
  List.insertionSort (· ≤ ·) (data.map fun r => r.retailer).dedup

/-- Lines 48-57, `detect_outliers`: split the table into retailer
groups (pandas groupby sorts the keys and keeps row order inside each
group), annotate each group from its own statistics, and concatenate. -/
noncomputable def detect_outliers (data : List Record) : List ORecord :=
  (retailerKeys data).flatMap fun k =>
    annotateGroup (data.filter fun r => r.retailer = k)

/-- The annotated row that `detect_outliers` produces for `r`: z-scores
and flags computed against the group of records sharing `r`'s retailer. -/
noncomputable def annotateRec (data : List Record) (r : Record) : ORecord :=
  { row := r
    z := fun m =>
      zscore (groupVals (data.filter fun x => x.retailer = r.retailer) m) (metricVal r m)
    flag := fun m =>
      flagOf (zscore (groupVals (data.filter fun x => x.retailer = r.retailer) m) (metricVal r m)) }

/-- Bool test that one character list starts with another. -/
def startsWithL : List Char → List Char → Bool
  | [], _ => true
  | _ :: _, [] => false
  | a :: as, b :: bs => a = b && startsWithL as bs

/-- Bool test that `needle` occurs as a contiguous run inside `hay`. -/
def hasSubL (needle : List Char) : List Char → Bool
  | [] => needle.isEmpty
  | c :: t => startsWithL needle (c :: t) || hasSubL needle t

/-- Python's substring test `needle in hay` on strings. -/
def strIn (needle hay : String) : Bool := hasSubL needle.toList hay.toList

/-- Lines 62-63, `label_issues`: join `"<metric>+"` / `"<metric>-"`
tokens with `", "` for every metric whose flag is truthy, in
`metric_cols` order. -/
def label_issues (fl : Metric → Option OFlag) : String :=
  String.intercalate ", "
    ((metricList.filter fun m => (fl m).isSome).map
      fun m => metricName m ++ (if fl m = some .High then "+" else "-"))

/-- Lines 65-71, `suggest_fix`: ordered substring rules over the
Broken_Metrics signature; the empty string is falsy and returns `None`. -/
def suggest_fix (issues : String) : Option String :=
  if issues = "" then none
  else if strIn "CTR+" issues && strIn "Revenue-" issues then
    some "High engagement, low conversion. Check targeting."
  else if strIn "ASP+" issues && strIn "CPO+" issues then
    some "High pricing/cost inefficiency. Consider promo adjustments."
  else if strIn "CTR-" issues then
    some "Poor engagement. Refresh creative."
  else if strIn "CVR-" issues then
    some "Low conversion. Audit checkout or product appeal."
  else some "Check channel-level strategy."

/-- A flag assignment for the five metrics from five flag values. -/
def mkFlags (c v r a p : Option OFlag) : Metric → Option OFlag
  | .CTR => c
  | .CVR => v
  | .Revenue => r
  | .ASP => a
  | .CPO => p

/-- The Suggested-Fix decision table exactly as claim C2 words it, on
flags rather than on the signature string: first match wins, empty
signature (no flag at all) gives no suggestion. -/
def specFix (fl : Metric → Option OFlag) : Option String :=
  if metricList.all fun m => fl m = none then none
  else if fl .CTR = some .High ∧ fl .Revenue = some .Low then
    some "High engagement, low conversion. Check targeting."
  else if fl .ASP = some .High ∧ fl .CPO = some .High then
    some "High pricing/cost inefficiency. Consider promo adjustments."
  else if fl .CTR = some .Low then
    some "Poor engagement. Refresh creative."
  else if fl .CVR = some .Low then
    some "Low conversion. Audit checkout or product appeal."
  else some "Check channel-level strategy."

/-- `np.median`: sort ascending, middle element for odd length, mean of
the two middle elements for even length.  (Every call in the pipeline
is on a rolling window of exactly 7 elements, so only the odd branch is
exercised; `np.median([])`'s NaN is unreachable and defaulted.) -/
def median (l : List ℚ) : ℚ :=
  let s := List.insertionSort (· ≤ ·) l
  if l.length % 2 = 1 then s.getD (l.length / 2) 0
  else (s.getD (l.length / 2 - 1) 0 + s.getD (l.length / 2) 0) / 2

/-- The trailing 7-point window ending at index `i` (pandas
`rolling(window=7)` at row `i`). -/
def windowAt (l : List ℚ) (i : ℕ) : List ℚ := (l.drop (i + 1 - 7)).take 7

/-- `Series.rolling(window=7).apply(f)` / `.mean()`: one output cell per
input row, NaN (`none`) until 7 points are available. -/
def rollingApp (f : List ℚ → ℚ) (l : List ℚ) : List (Option ℚ) :=
  (List.range l.length).map fun i =>
    if 7 ≤ i + 1 then some (f (windowAt l i)) else none

/-- The lambda of line 143: `np.median(np.abs(x - np.median(x)))`. -/
def madFn (x : List ℚ) : ℚ := median (x.map fun v => |v - median x|)

/-- Line 142: `ma_df["MA"] = ...rolling(window=7).mean()`. -/
def maList (l : List ℚ) : List (Option ℚ) := rollingApp listMean l

/-- Line 143: `ma_df["MAD"] = ...rolling(window=7).apply(madFn)`. -/
def madList (l : List ℚ) : List (Option ℚ) := rollingApp madFn l

/-- Line 144: `abs(col - MA) > 3 * MAD` per row, with NaN comparisons
evaluating to False exactly as in pandas. -/
def anomalyList (l : List ℚ) : List Bool :=
  (List.range l.length).map fun i =>
    match (maList l).getD i none, (madList l).getD i none with
    | some ma, some mad => decide (|l.getD i 0 - ma| > 3 * mad)
    | _, _ => false

/-- Population mean of a list of reals. -/
noncomputable def popMeanR (l : List ℝ) : ℝ := l.sum / l.length

/-- Population variance (ddof = 0) of a list of reals. -/
noncomputable def popVarR (l : List ℝ) : ℝ :=
  (l.map fun x => (x - popMeanR l) ^ 2).sum / l.length

/-- Sample variance (ddof = 1) of a list of reals. -/
noncomputable def sampleVarR (l : List ℝ) : ℝ :=
  (l.map fun x => (x - popMeanR l) ^ 2).sum / ((l.length : ℝ) - 1)

/-- Numeric content of a z-score cell (0 for the non-finite values). -/
noncomputable def finPart : FVal → ℝ
  | .fin x => x
  | _ => 0

/-- The z-score column a partition's value list produces, as reals. -/
noncomputable def zReals (l : List ℚ) : List ℝ :=
  l.map fun v => finPart (zscore l (some v))

/-- The required input columns of the "Calcs" sheet, in the order the
spec lists them (the refutation below only uses that "Costs" is among
them, which the dropna of line 42 requires of any accepted sheet). -/
def inputColumns : List String :=
  ["Date", "CTR", "CVR", "Revenue", "Costs", "Orders", "Retailer", "Line Item"]

/-- Column layout of `df` after the pipeline: the input columns, then
ASP and CPO (lines 43-44), then one `_z` and one `_flag` column per
metric in `metric_cols` order (lines 52-55), then Broken_Metrics,
Needs_Review and Suggested_Fix (lines 73-75). -/
def dfColumns : List String :=
  inputColumns ++ ["ASP", "CPO"] ++
    (metricList.flatMap fun m => [metricName m ++ "_z", metricName m ++ "_flag"]) ++
    ["Broken_Metrics", "Needs_Review", "Suggested_Fix"]

/-- Columns of the filtered flagged table `f` at download time: the
tab-1 code has already added "Issue Combo" (line 111) by the time the
tab-3 download button is built (line 135). -/
def fixListColumns : List String := dfColumns ++ ["Issue Combo"]

/-- Header of `f.to_csv(index=False)` (line 135): all columns of `f`,
unrenamed. -/
def csvColumns : List String := fixListColumns

/-- The ten columns of the drilldown table displayed on line 134. -/
def drilldownColumns : List String :=
  ["Date", "Retailer", "Line Item", "Broken_Metrics", "Suggested_Fix",
   "CTR", "CVR", "ASP", "CPO", "Revenue"]

/-- `to_csv(index=False)` emits the header and then the rows in table
order. -/
def to_csv (header : List String) (rows : List (List String)) :
    List (List String) := header :: rows

/-- Concrete records used by the witnesses: retailer "A" with metric
columns 1, 2, 3 (sample variance 1) and Orders = 0 everywhere, so the
ASP and CPO cells are all missing. -/
def recA1 : Record := ⟨0, "A", "a1", 1, 1, 1, 1, 0⟩

/-- Second witness record of retailer "A". -/
def recA2 : Record := ⟨1, "A", "a2", 2, 2, 2, 2, 0⟩

/-- Third witness record of retailer "A". -/
def recA3 : Record := ⟨2, "A", "a3", 3, 3, 3, 3, 0⟩

/-- A witness record of a different retailer "B". -/
def recB1 : Record := ⟨0, "B", "b1", 5, 5, 5, 5, 1⟩

/-- Witness table holding only retailer "A". -/
def dataA : List Record := [recA1, recA2, recA3]

/-- Witness table holding retailer "A"'s records plus a "B" record. -/
def dataAB : List Record := [recB1, recA1, recA2, recA3]

/-- A record with a negative order count. -/
def recNeg : Record := ⟨0, "A", "x", 1, 1, 1, 1, -2⟩

/-- Two-record retailer "A" table with CTR values 0 and 2: sample
variance 2, so the two CTR z-scores are ∓1/√2. -/
def dataC7 : List Record := [⟨0, "A", "p", 0, 0, 0, 0, 0⟩, ⟨1, "A", "q", 2, 2, 2, 2, 0⟩]

/-- A 7-point witness series for the rolling-window claims. -/
def seriesW : List ℚ := [0, 1, 2, 3, 4, 5, 6]

/-- Claim C9: a row with Orders = 0 gets missing (null) ASP and CPO
cells rather than an infinite or NaN division result (the guard of
lines 43-44 short-circuits the division; the model is total, so no
error is raised), and a missing cell propagates downstream to a NaN
z-score and no flag, whatever partition it meets. -/
theorem C9_orders_zero_gives_missing (r : Record) (h : r.orders = 0) :
    aspOf r = none ∧ cpoOf r = none ∧
      (∀ l : List ℚ, zscore l (aspOf r) = FVal.nan ∧ flagOf (zscore l (aspOf r)) = none) ∧
      (∀ l : List ℚ, zscore l (cpoOf r) = FVal.nan ∧ flagOf (zscore l (cpoOf r)) = none) := by
  have ha : aspOf r = none := by simp [aspOf, h]
  have hc : cpoOf r = none := by simp [cpoOf, h]
  exact ⟨ha, hc, fun l => ⟨by rw [ha]; rfl, by rw [ha]; rfl⟩,
    fun l => ⟨by rw [hc]; rfl, by rw [hc]; rfl⟩⟩

/-- Witness for C9 at the concrete record `recA1`, whose Orders cell is 0. -/
theorem C9_witness :
    aspOf recA1 = none ∧ cpoOf recA1 = none ∧ flagOf (zscore [] (aspOf recA1)) = none :=
  ⟨(C9_orders_zero_gives_missing recA1 rfl).1,
   (C9_orders_zero_gives_missing recA1 rfl).2.1,
   ((C9_orders_zero_gives_missing recA1 rfl).2.2.1 []).2⟩

/-- Claim C10: the division guard of lines 43-44 tests `Orders > 0`
strictly, so a negative order count also yields missing ASP and CPO —
never a negative derived value. -/
theorem C10_negative_orders_gives_missing (r : Record) (h : r.orders < 0) :
    aspOf r = none ∧ cpoOf r = none := by
  have hng : ¬ r.orders > 0 := lt_asymm h
  exact ⟨by simp [aspOf, hng], by simp [cpoOf, hng]⟩

/-- Witness for C10 at the concrete record `recNeg`, whose Orders cell is -2. -/
theorem C10_witness : aspOf recNeg = none ∧ cpoOf recNeg = none :=
  C10_negative_orders_gives_missing recNeg (by norm_num [recNeg])

set_option maxRecDepth 10000 in
/-- Claim C2: for every assignment of flags to the five metrics, the
suggestion `suggest_fix` computes from the `label_issues` signature
string equals the ordered rule table stated by the claim (`specFix`):
rule 1 (CTR High and Revenue Low), then rule 2 (ASP High and CPO
High), then rule 3 (CTR Low), then rule 4 (CVR Low), then the generic
fallback for any other non-empty signature, and no suggestion for an
empty signature.  First match wins, so flags meeting both rule 1 and
rule 3 receive rule 1's message. -/
theorem C2_suggest_fix_rule_table :
    ∀ c v r a p : Option OFlag,
      suggest_fix (label_issues (mkFlags c v r a p)) = specFix (mkFlags c v r a p) := by
  decide

/-- Claim C4 counterexample: the download button of line 135 serialises
`f.to_csv(index=False)` on the whole flagged table, not on the
ten-column view displayed on line 134, so the CSV header also holds
"Costs" (and the z, flag and bookkeeping columns), which the claim's
exact column list excludes. -/
theorem C4_counterexample :
    "Costs" ∈ csvColumns ∧ "Costs" ∉ drilldownColumns ∧ csvColumns ≠ drilldownColumns := by
  refine ⟨by decide, by decide, by decide⟩

/-- Claim C4 (amended): the CSV export contains every column of the
flagged filtered table — the input columns, ASP, CPO, the ten z/flag
columns, Broken_Metrics, Needs_Review, Suggested_Fix and Issue Combo —
in table order with no header renaming, and its row order follows the
filtered table's order; the ten columns the claim lists are those of
the displayed drilldown table, each of which does appear in the CSV. -/
theorem C4_amended_csv_columns :
    (∀ c ∈ drilldownColumns, c ∈ csvColumns) ∧ csvColumns = fixListColumns ∧
      (∀ rows : List (List String), to_csv csvColumns rows = csvColumns :: rows) :=
  ⟨by decide, rfl, fun _ => rfl⟩

/-- Witness for C4 (amended) at the concrete column "Date". -/
theorem C4_amended_witness : "Date" ∈ csvColumns :=
  C4_amended_csv_columns.1 "Date" (by decide)

/-- Indexing one output cell of a rolling-window column. -/
lemma rollingApp_getD (f : List ℚ → ℚ) (l : List ℚ) (i : ℕ) (hi : i < l.length) :
    (rollingApp f l).getD i none
      = if 7 ≤ i + 1 then some (f (windowAt l i)) else none := by
  rw [rollingApp, List.getD_eq_getElem?_getD, List.getElem?_map]
  simp [List.getElem?_range, hi]

/-- Indexing one output cell of the anomaly column. -/
lemma anomalyList_getD (l : List ℚ) (i : ℕ) (hi : i < l.length) :
    (anomalyList l).getD i false
      = match (maList l).getD i none, (madList l).getD i none with
        | some ma, some mad => decide (|l.getD i 0 - ma| > 3 * mad)
        | _, _ => false := by
  rw [anomalyList, List.getD_eq_getElem?_getD, List.getElem?_map]
  simp [List.getElem?_range, hi]

/-- Claim C3: over a chronologically sorted series of non-missing
values, the rolling mean at an in-window index is the arithmetic mean
of the trailing 7-point window ending at (and including) that index,
the rolling MAD is the median of the absolute deviations from the
window's median, the anomaly flag holds exactly when the distance of
the current value from the rolling mean strictly exceeds 3 times the
rolling MAD, and the first six indices of the series have undefined
(NaN) rolling statistics and are never flagged. -/
theorem C3_rolling_window (l : List ℚ) (i : ℕ) (hi : i < l.length) :
    (6 ≤ i →
      (maList l).getD i none = some (listMean (windowAt l i)) ∧
      (madList l).getD i none
        = some (median ((windowAt l i).map fun x => |x - median (windowAt l i)|)) ∧
      ((anomalyList l).getD i false = true ↔
        |l.getD i 0 - listMean (windowAt l i)| > 3 * madFn (windowAt l i)) ∧
      windowAt l i = (l.drop (i - 6)).take 7 ∧
      (windowAt l i).length = 7 ∧ (windowAt l i).getLast? = l[i]?) ∧
    (i < 6 →
      (maList l).getD i none = none ∧ (madList l).getD i none = none ∧
      (anomalyList l).getD i false = false) := by
  constructor
  · intro h6
    have h7 : 7 ≤ i + 1 := by omega
    have hma : (maList l).getD i none = some (listMean (windowAt l i)) := by
      rw [maList, rollingApp_getD _ _ _ hi, if_pos h7]
    have hmad : (madList l).getD i none = some (madFn (windowAt l i)) := by
      rw [madList, rollingApp_getD _ _ _ hi, if_pos h7]
    have hlen : (windowAt l i).length = 7 := by
      rw [windowAt, List.length_take, List.length_drop]; omega
    refine ⟨hma, by rw [hmad]; rfl, ?_, ?_, hlen, ?_⟩
    · rw [anomalyList_getD l i hi, hma, hmad]
      exact decide_eq_true_iff
    · rw [windowAt, show i + 1 - 7 = i - 6 from by omega]
    · rw [List.getLast?_eq_getElem?, hlen, windowAt]
      rw [List.getElem?_take, List.getElem?_drop]
      norm_num
      congr 1
      omega
  · intro h6
    have h7 : ¬ 7 ≤ i + 1 := by omega
    have hma : (maList l).getD i none = none := by
      rw [maList, rollingApp_getD _ _ _ hi, if_neg h7]
    have hmad : (madList l).getD i none = none := by
      rw [madList, rollingApp_getD _ _ _ hi, if_neg h7]
    refine ⟨hma, hmad, ?_⟩
    rw [anomalyList_getD l i hi, hma, hmad]

/-- Witness for C3 at the concrete 7-point series `seriesW`, index 6. -/
theorem C3_witness :
    (maList seriesW).getD 6 none = some (listMean (windowAt seriesW 6)) ∧
      (windowAt seriesW 6).length = 7 ∧
      (maList seriesW).getD 0 none = none :=
  ⟨((C3_rolling_window seriesW 6 (by norm_num [seriesW])).1 (by norm_num)).1,
   ((C3_rolling_window seriesW 6 (by norm_num [seriesW])).1 (by norm_num)).2.2.2.2.1,
   ((C3_rolling_window seriesW 0 (by norm_num [seriesW])).2 (by norm_num)).1⟩

/-- The mean of a nonempty constant list is the constant. -/
lemma listMean_replicate (n : ℕ) (c : ℚ) (hn : n ≠ 0) :
    listMean (List.replicate n c) = c := by
  rw [listMean, List.sum_replicate, List.length_replicate, nsmul_eq_mul]
  field_simp

/-- Sorting a constant list returns it unchanged. -/
lemma insertionSort_replicate (n : ℕ) (c : ℚ) :
    List.insertionSort (· ≤ ·) (List.replicate n c) = List.replicate n c := by
  have hp := List.perm_insertionSort (fun a b : ℚ => a ≤ b) (List.replicate n c)
  rw [List.eq_replicate_iff]
  exact ⟨by rw [hp.length_eq, List.length_replicate],
    fun b hb => List.eq_of_mem_replicate (hp.mem_iff.mp hb)⟩

/-- The median of a nonempty constant list is the constant. -/
lemma median_replicate (n : ℕ) (c : ℚ) (hn : 0 < n) :
    median (List.replicate n c) = c := by
  rw [median]
  simp only [insertionSort_replicate, List.length_replicate]
  have h2 : n / 2 < n := Nat.div_lt_self hn (by norm_num)
  have hg : ∀ k, k < n → (List.replicate n c).getD k 0 = c := by
    intro k hk
    rw [List.getD_eq_getElem?_getD, List.getElem?_replicate, if_pos hk]
    rfl
  split
  · exact hg _ h2
  · rw [hg _ h2, hg _ (by omega)]
    norm_num

/-- The MAD of a 7-point constant window is 0. -/
lemma madFn_replicate (c : ℚ) : madFn (List.replicate 7 c) = 0 := by
  rw [madFn, median_replicate 7 c (by norm_num), List.map_replicate]
  rw [sub_self, abs_zero, median_replicate 7 0 (by norm_num)]

/-- Every rolling window of the 14-point flat series is 7 copies of the value. -/
lemma windowAt_replicate (c : ℚ) (i : ℕ) (hi : i < 14) :
    windowAt (List.replicate 14 c) i = List.replicate 7 c := by
  rw [windowAt, List.drop_replicate, List.take_replicate]
  congr 1
  omega

/-- Claim C8: on a flat series of 14 identical metric values the
rolling MAD column is NaN for the first six points and exactly 0 for
every in-window point, and the anomaly column is identically false:
with 3 x MAD = 0 the strict > never fires on an exactly-equal value
(the embedding computes in exact arithmetic, so no floating-point
artifact can produce a spurious anomaly, and no division occurs in the
predicate at all). -/
theorem C8_flat_series (c : ℚ) :
    madList (List.replicate 14 c) = List.replicate 6 none ++ List.replicate 8 (some 0) ∧
      anomalyList (List.replicate 14 c) = List.replicate 14 false := by
  constructor
  · rw [madList, rollingApp, List.length_replicate]
    rw [show List.range 14 = [0,1,2,3,4,5,6,7,8,9,10,11,12,13] from rfl]
    simp only [List.map_cons, List.map_nil]
    norm_num [windowAt_replicate, madFn_replicate]
    rfl
  · have hgd : ∀ k : ℕ, k < 14 → (List.replicate 14 c).getD k 0 = c := by
      intro k hk
      rw [List.getD_eq_getElem?_getD, List.getElem?_replicate, if_pos hk]
      rfl
    have hma : ∀ i : ℕ, 7 ≤ i + 1 → i < 14 →
        (maList (List.replicate 14 c)).getD i none = some c := by
      intro i h7 hi
      rw [maList, rollingApp_getD _ _ _ (by rw [List.length_replicate]; exact hi), if_pos h7,
        windowAt_replicate c i hi, listMean_replicate 7 c (by norm_num)]
    have hmad : ∀ i : ℕ, 7 ≤ i + 1 → i < 14 →
        (madList (List.replicate 14 c)).getD i none = some 0 := by
      intro i h7 hi
      rw [madList, rollingApp_getD _ _ _ (by rw [List.length_replicate]; exact hi), if_pos h7,
        windowAt_replicate c i hi, madFn_replicate]
    have hlowma : ∀ i : ℕ, ¬ 7 ≤ i + 1 → (maList (List.replicate 14 c)).getD i none = none := by
      intro i h7
      rw [maList, rollingApp_getD _ _ _ (by rw [List.length_replicate]; omega), if_neg h7]
    rw [anomalyList, List.length_replicate]
    rw [show List.range 14 = [0,1,2,3,4,5,6,7,8,9,10,11,12,13] from rfl]
    simp only [List.map_cons, List.map_nil]
    rw [hlowma 0 (by norm_num), hlowma 1 (by norm_num), hlowma 2 (by norm_num),
      hlowma 3 (by norm_num), hlowma 4 (by norm_num), hlowma 5 (by norm_num)]
    rw [hma 6 (by norm_num) (by norm_num), hma 7 (by norm_num) (by norm_num),
      hma 8 (by norm_num) (by norm_num), hma 9 (by norm_num) (by norm_num),
      hma 10 (by norm_num) (by norm_num), hma 11 (by norm_num) (by norm_num),
      hma 12 (by norm_num) (by norm_num), hma 13 (by norm_num) (by norm_num)]
    rw [hmad 6 (by norm_num) (by norm_num), hmad 7 (by norm_num) (by norm_num),
      hmad 8 (by norm_num) (by norm_num), hmad 9 (by norm_num) (by norm_num),
      hmad 10 (by norm_num) (by norm_num), hmad 11 (by norm_num) (by norm_num),
      hmad 12 (by norm_num) (by norm_num), hmad 13 (by norm_num) (by norm_num)]
    rw [hgd 6 (by norm_num), hgd 7 (by norm_num), hgd 8 (by norm_num), hgd 9 (by norm_num),
      hgd 10 (by norm_num), hgd 11 (by norm_num), hgd 12 (by norm_num), hgd 13 (by norm_num)]
    norm_num
    rfl

/-- A some-valued sample variance needs at least two values. -/
lemma sampleVar_len {l : List ℚ} {s2 : ℚ} (h : sampleVar l = some s2) : 2 ≤ l.length := by
  by_contra hq
  rw [sampleVar, if_neg hq] at h
  cases h

/-- Value of a defined sample variance. -/
lemma sampleVar_eq {l : List ℚ} {s2 : ℚ} (h : sampleVar l = some s2) :
    s2 = (l.map fun x => (x - listMean l) ^ 2).sum / ((l.length : ℚ) - 1) := by
  have hl := sampleVar_len h
  rw [sampleVar, if_pos hl] at h
  exact (Option.some.inj h).symm

/-- A sum of squared deviations is nonnegative. -/
lemma sq_sum_nonneg (l : List ℚ) (c : ℚ) : 0 ≤ (l.map fun x => (x - c) ^ 2).sum := by
  apply List.sum_nonneg
  intro a ha
  obtain ⟨y, hy, rfl⟩ := List.mem_map.mp ha
  positivity

/-- A defined sample variance is nonnegative. -/
lemma sampleVar_nonneg {l : List ℚ} {s2 : ℚ} (h : sampleVar l = some s2) : 0 ≤ s2 := by
  have hl := sampleVar_len h
  rw [sampleVar_eq h]
  apply div_nonneg (sq_sum_nonneg l _)
  have h2 : (2:ℚ) ≤ l.length := by exact_mod_cast hl
  linarith

/-- A vanishing sum of squared deviations forces every value to the center. -/
lemma sq_sum_zero {l : List ℚ} {c : ℚ} (h : (l.map fun x => (x - c) ^ 2).sum = 0) :
    ∀ x ∈ l, x = c := by
  induction l with
  | nil => intro x hx; cases hx
  | cons a t ih =>
    rw [List.map_cons, List.sum_cons] at h
    have h1 : 0 ≤ (a - c) ^ 2 := sq_nonneg _
    have h2 : 0 ≤ (t.map fun x => (x - c) ^ 2).sum := sq_sum_nonneg t c
    have ha : (a - c) ^ 2 = 0 := by linarith
    have ht : (t.map fun x => (x - c) ^ 2).sum = 0 := by linarith
    intro x hx
    rcases List.mem_cons.mp hx with rfl | hxt
    · have hz := sq_eq_zero_iff.mp ha
      linarith [hz]
    · exact ih ht x hxt

/-- Zero sample variance means every value equals the mean, so in exact
arithmetic a zero std can only meet a zero numerator. -/
lemma sampleVar_zero {l : List ℚ} (h : sampleVar l = some 0) :
    ∀ x ∈ l, x = listMean l := by
  have hl := sampleVar_len h
  have he := (sampleVar_eq h).symm
  have hn : ((l.length : ℚ) - 1) ≠ 0 := by
    have h2 : (2:ℚ) ≤ l.length := by exact_mod_cast hl
    intro hc
    rw [sub_eq_zero] at hc
    rw [hc] at h2
    norm_num at h2
  rcases div_eq_zero_iff.mp he with hsum | hbad
  · exact sq_sum_zero hsum
  · exact absurd hbad hn

/-- The z-score cell is finite whenever the std is defined and nonzero. -/
lemma zscore_some_fin {l : List ℚ} {s2 : ℚ} (hs2 : sampleVar l = some s2) (h0 : s2 ≠ 0) (x : ℚ) :
    zscore l (some x) = .fin (((x - listMean l : ℚ) : ℝ) / Real.sqrt (s2 : ℝ)) := by
  have hl := sampleVar_len hs2
  have hne : ¬ l.length = 0 := by omega
  have hm : sampleMean l = some (listMean l) := by rw [sampleMean, if_neg hne]
  simp only [zscore, hm, hs2, if_neg h0]

/-- The z-score cell is NaN when the std is NaN. -/
lemma zscore_novar {l : List ℚ} (h : sampleVar l = none) (x : ℚ) : zscore l (some x) = .nan := by
  cases hm : sampleMean l <;> simp only [zscore, h, hm]

/-- The z-score cell of an in-partition value is NaN when the std is 0,
because that value must then equal the mean (0/0, not x/0). -/
lemma zscore_var_zero {l : List ℚ} (h : sampleVar l = some 0) (x : ℚ) (hx : x ∈ l) :
    zscore l (some x) = .nan := by
  have hl := sampleVar_len h
  have hne : ¬ l.length = 0 := by omega
  have hm : sampleMean l = some (listMean l) := by rw [sampleMean, if_neg hne]
  have hxm : x = listMean l := sampleVar_zero h x hx
  simp [zscore, hm, h, hxm]

/-- An in-partition value never produces a signed-infinity z-score. -/
lemma zscore_ne_inf {l : List ℚ} {x : ℚ} (hx : x ∈ l) :
    zscore l (some x) ≠ FVal.posInf ∧ zscore l (some x) ≠ FVal.negInf := by
  cases hvar : sampleVar l with
  | none => rw [zscore_novar hvar]; exact ⟨fun h => FVal.noConfusion h, fun h => FVal.noConfusion h⟩
  | some s2 =>
    by_cases h0 : s2 = 0
    · subst h0
      rw [zscore_var_zero hvar x hx]
      exact ⟨fun h => FVal.noConfusion h, fun h => FVal.noConfusion h⟩
    · rw [zscore_some_fin hvar h0]
      exact ⟨fun h => FVal.noConfusion h, fun h => FVal.noConfusion h⟩

/-- The retailer keys of a groupby are duplicate-free. -/
lemma retailerKeys_nodup (data : List Record) : (retailerKeys data).Nodup :=
  ((List.perm_insertionSort _ _).nodup_iff).mpr (List.nodup_dedup _)

/-- A string is a retailer key exactly when some record carries it. -/
lemma mem_retailerKeys {data : List Record} {k : String} :
    k ∈ retailerKeys data ↔ ∃ r ∈ data, r.retailer = k := by
  unfold retailerKeys
  rw [(List.perm_insertionSort _ _).mem_iff, List.mem_dedup]
  simp

/-- Flat-mapping a function that vanishes away from one key over a
duplicate-free key list yields just that key's block. -/
lemma flatMap_single {α : Type} [DecidableEq α] {β : Type} (keys : List α) (h : α → List β)
    (R : α) (hn : keys.Nodup) (hz : ∀ k ∈ keys, k ≠ R → h k = []) :
    keys.flatMap h = if R ∈ keys then h R else [] := by
  induction keys with
  | nil => simp
  | cons a t ih =>
    rw [List.flatMap_cons]
    rcases List.nodup_cons.mp hn with ⟨haT, hnT⟩
    have ihz : ∀ k ∈ t, k ≠ R → h k = [] := fun k hk => hz k (List.mem_cons_of_mem a hk)
    rw [ih hnT ihz]
    by_cases haR : a = R
    · subst haR
      rw [if_pos (List.mem_cons_self a t), if_neg haT]
      simp
    · rw [hz a (List.mem_cons_self a t) haR, List.nil_append]
      by_cases hRt : R ∈ t
      · rw [if_pos hRt, if_pos (List.mem_cons_of_mem a hRt)]
      · rw [if_neg hRt, if_neg ?_]
        intro hc
        rcases List.mem_cons.mp hc with rfl | hRt2
        · exact haR rfl
        · exact hRt hRt2

/-- Restricting the detector output to one retailer gives exactly the
annotation of that retailer's own group. -/
lemma detect_filter (data : List Record) (R : String) :
    (detect_outliers data).filter (fun o => o.row.retailer = R)
      = annotateGroup (data.filter fun r => r.retailer = R) := by
  rw [detect_outliers, List.filter_flatMap]
  have hgroups : ∀ k, k ≠ R →
      (annotateGroup (data.filter fun r => r.retailer = k)).filter
        (fun o => o.row.retailer = R) = [] := by
    intro k hkR
    apply List.filter_eq_nil_iff.mpr
    intro o ho
    rw [annotateGroup, List.mem_map] at ho
    obtain ⟨r, hr, rfl⟩ := ho
    have hk : r.retailer = k := by
      have h2 := (List.mem_filter.mp hr).2
      simpa using h2
    simp [hk, hkR]
  by_cases hR : R ∈ retailerKeys data
  · rw [flatMap_single (retailerKeys data) _ R (retailerKeys_nodup data)
      (fun k _ hk => hgroups k hk), if_pos hR]
    apply List.filter_eq_self.mpr
    intro o ho
    rw [annotateGroup, List.mem_map] at ho
    obtain ⟨r, hr, rfl⟩ := ho
    have hk : r.retailer = R := by
      have h2 := (List.mem_filter.mp hr).2
      simpa using h2
    simp [hk]
  · have hzero : data.filter (fun r => r.retailer = R) = [] := by
      apply List.filter_eq_nil_iff.mpr
      intro r hr
      simp only [decide_eq_true_eq]
      intro hc
      exact hR (mem_retailerKeys.mpr ⟨r, hr, hc⟩)
    rw [flatMap_single (retailerKeys data) _ R (retailerKeys_nodup data)
      (fun k _ hk => hgroups k hk), if_neg hR, hzero, annotateGroup]
    rfl

/-- The rows of the detector output are exactly the input records, each
annotated against its own retailer's group. -/
lemma mem_detect {data : List Record} {o : ORecord} :
    o ∈ detect_outliers data ↔ ∃ r ∈ data, o = annotateRec data r := by
  rw [detect_outliers, List.mem_flatMap]
  constructor
  · rintro ⟨k, hk, ho⟩
    rw [annotateGroup, List.mem_map] at ho
    obtain ⟨r, hr, rfl⟩ := ho
    rcases List.mem_filter.mp hr with ⟨hrd, hrk⟩
    have hrk2 : r.retailer = k := by simpa using hrk
    refine ⟨r, hrd, ?_⟩
    subst hrk2
    rfl
  · rintro ⟨r, hrd, rfl⟩
    refine ⟨r.retailer, mem_retailerKeys.mpr ⟨r, hrd, rfl⟩, ?_⟩
    rw [annotateGroup, List.mem_map]
    exact ⟨r, List.mem_filter.mpr ⟨hrd, by simp⟩, rfl⟩

/-- Claim C1: every output row of `detect_outliers` carries, for each
metric with a present value and a defined nonzero std in its retailer's
partition, the z-score (value - mean) / std computed from the records
of that retailer only, and a flag that is High exactly when z > 2, Low
exactly when z < -2, and none otherwise. -/
theorem C1_zscore_and_flags (data : List Record) (o : ORecord)
    (ho : o ∈ detect_outliers data) (m : Metric) (v s2 : ℚ)
    (hv : metricVal o.row m = some v)
    (hs2 : sampleVar (groupVals (data.filter fun x => x.retailer = o.row.retailer) m) = some s2)
    (h0 : s2 ≠ 0) :
    o.z m = FVal.fin
        (((v - listMean (groupVals (data.filter fun x => x.retailer = o.row.retailer) m) : ℚ) : ℝ)
          / Real.sqrt (s2 : ℝ)) ∧
    o.flag m =
      (if (((v - listMean (groupVals (data.filter fun x => x.retailer = o.row.retailer) m) : ℚ) : ℝ)
            / Real.sqrt (s2 : ℝ)) > 2 then some OFlag.High
       else if (((v - listMean (groupVals (data.filter fun x => x.retailer = o.row.retailer) m) : ℚ) : ℝ)
            / Real.sqrt (s2 : ℝ)) < -2 then some OFlag.Low
       else none) := by
  obtain ⟨r, hrd, rfl⟩ := mem_detect.mp ho
  simp only [annotateRec] at hv hs2 ⊢
  rw [hv]
  rw [zscore_some_fin hs2 h0]
  exact ⟨rfl, rfl⟩

/-- Witness for C1: the middle record of `dataA` (CTR column 1, 2, 3,
sample variance 1) receives the z-score (2 - mean) / sqrt 1. -/
theorem C1_witness :
    (annotateRec dataA recA2).z Metric.CTR = FVal.fin
      (((2 - listMean (groupVals (dataA.filter fun x =>
          x.retailer = (annotateRec dataA recA2).row.retailer) Metric.CTR) : ℚ) : ℝ)
        / Real.sqrt ((1:ℚ) : ℝ)) :=
  (C1_zscore_and_flags dataA (annotateRec dataA recA2)
    (mem_detect.mpr ⟨recA2, by norm_num [dataA], rfl⟩) Metric.CTR 2 1 rfl
    (by norm_num [annotateRec, dataA, recA1, recA2, recA3, groupVals, sampleVar, listMean,
      metricVal, List.filter_cons, List.filterMap_cons])
    (by norm_num)).1

/-- Claim C5: in every output row of the detector, a missing metric
value, a partition with fewer than two values, or a zero variance all
yield no flag (the code raises no error there; the embedding is total),
and the z-score cell of a row is never a signed infinity, so neither a
NaN nor an infinite z is ever reported as High or Low. -/
theorem C5_degenerate_no_flag (data : List Record) (o : ORecord)
    (ho : o ∈ detect_outliers data) (m : Metric) :
    (metricVal o.row m = none → o.flag m = none) ∧
    ((groupVals (data.filter fun x => x.retailer = o.row.retailer) m).length < 2 →
      o.flag m = none) ∧
    (sampleVar (groupVals (data.filter fun x => x.retailer = o.row.retailer) m) = some 0 →
      o.flag m = none) ∧
    o.z m ≠ FVal.posInf ∧ o.z m ≠ FVal.negInf := by
  obtain ⟨r, hrd, rfl⟩ := mem_detect.mp ho
  simp only [annotateRec]
  have hmem : ∀ x : ℚ, metricVal r m = some x →
      x ∈ groupVals (data.filter fun y => y.retailer = r.retailer) m := by
    intro x hx
    rw [groupVals, List.mem_filterMap]
    exact ⟨r, List.mem_filter.mpr ⟨hrd, by simp⟩, hx⟩
  refine ⟨?_, ?_, ?_, ?_, ?_⟩
  · intro hvv
    rw [hvv]
    rfl
  · intro hlen
    have hvar : sampleVar (groupVals (data.filter fun y => y.retailer = r.retailer) m) = none := by
      rw [sampleVar, if_neg (by omega)]
    cases hvv : metricVal r m with
    | none => rfl
    | some x =>
      rw [zscore_novar hvar x]
      rfl
  · intro hvar
    cases hvv : metricVal r m with
    | none => rfl
    | some x =>
      rw [zscore_var_zero hvar x (hmem x hvv)]
      rfl
  · cases hvv : metricVal r m with
    | none => exact fun h => FVal.noConfusion h
    | some x => exact (zscore_ne_inf (hmem x hvv)).1
  · cases hvv : metricVal r m with
    | none => exact fun h => FVal.noConfusion h
    | some x => exact (zscore_ne_inf (hmem x hvv)).2

/-- Witness for C5: in `dataA` every ASP cell is missing (Orders = 0),
so the first record's ASP flag is none, and its CTR z-score is not +∞. -/
theorem C5_witness :
    (annotateRec dataA recA1).flag Metric.ASP = none ∧
      (annotateRec dataA recA1).z Metric.CTR ≠ FVal.posInf :=
  ⟨(C5_degenerate_no_flag dataA (annotateRec dataA recA1)
      (mem_detect.mpr ⟨recA1, by norm_num [dataA], rfl⟩) Metric.ASP).1 rfl,
   (C5_degenerate_no_flag dataA (annotateRec dataA recA1)
      (mem_detect.mpr ⟨recA1, by norm_num [dataA], rfl⟩) Metric.CTR).2.2.2.1⟩

/-- Claim C6: the annotated rows of retailer R depend only on R's own
records — two tables agreeing on R's records (whatever other retailers
are present, in whatever order) produce identical z-scores and flags
for every record of R. -/
theorem C6_retailer_isolation (data1 data2 : List Record) (R : String)
    (h : data1.filter (fun r => r.retailer = R) = data2.filter (fun r => r.retailer = R)) :
    (detect_outliers data1).filter (fun o => o.row.retailer = R)
      = (detect_outliers data2).filter (fun o => o.row.retailer = R) := by
  rw [detect_filter, detect_filter, h]

/-- Witness for C6: adding a "B" record in front of retailer "A"'s
records leaves "A"'s annotated rows unchanged. -/
theorem C6_witness :
    (detect_outliers dataA).filter (fun o => o.row.retailer = "A")
      = (detect_outliers dataAB).filter (fun o => o.row.retailer = "A") :=
  C6_retailer_isolation dataA dataAB "A" (by decide)

/-- Distributing a sum over a division by a constant. -/
lemma sum_map_div_real (l : List ℚ) (f : ℚ → ℝ) (c : ℝ) :
    (l.map fun v => f v / c).sum = (l.map f).sum / c := by
  induction l with
  | nil => simp
  | cons a t ih => simp [List.map_cons, List.sum_cons, ih, add_div]

/-- Summing centred casts of a rational list. -/
lemma sum_map_sub_real (l : List ℚ) (c : ℝ) :
    (l.map fun v : ℚ => (v:ℝ) - c).sum = ((l.sum : ℚ) : ℝ) - l.length * c := by
  induction l with
  | nil => simp
  | cons a t ih =>
    rw [List.map_cons, List.sum_cons, ih, List.sum_cons, List.length_cons]
    push_cast
    ring

/-- A sum of squared deviations casts from the rational computation. -/
lemma sum_map_sq_cast (l : List ℚ) (c : ℚ) :
    (l.map fun v : ℚ => ((v:ℝ) - (c:ℝ)) ^ 2).sum
      = (((l.map fun v => (v - c) ^ 2).sum : ℚ) : ℝ) := by
  induction l with
  | nil => simp
  | cons a t ih =>
    rw [List.map_cons, List.sum_cons, ih, List.map_cons, List.sum_cons]
    push_cast
    ring

/-- In the generic case the z-score column is the centred, scaled value list. -/
lemma zReals_eq {l : List ℚ} {s2 : ℚ} (hs2 : sampleVar l = some s2) (h0 : s2 ≠ 0) :
    zReals l = l.map fun v : ℚ => ((v:ℝ) - (listMean l : ℝ)) / Real.sqrt (s2 : ℝ) := by
  rw [zReals]
  apply List.map_congr_left
  intro v hv
  rw [zscore_some_fin hs2 h0 v, finPart]
  push_cast
  ring_nf

/-- Moments of the z-score column: population mean exactly 0, and
sample variance (the ddof = 1 divisor the code's std uses) exactly 1. -/
lemma zmoments {l : List ℚ} {s2 : ℚ} (hs2 : sampleVar l = some s2) (h0 : s2 ≠ 0) :
    popMeanR (zReals l) = 0 ∧ sampleVarR (zReals l) = 1 := by
  have hlen := sampleVar_len hs2
  have hnn := sampleVar_nonneg hs2
  have hpos : (0:ℝ) < (s2 : ℝ) := by
    have hq : (0:ℚ) < s2 := lt_of_le_of_ne hnn (Ne.symm h0)
    exact_mod_cast hq
  have hsq : Real.sqrt (s2:ℝ) ^ 2 = (s2:ℝ) := Real.sq_sqrt (le_of_lt hpos)
  have hs : (0:ℝ) < Real.sqrt (s2:ℝ) := Real.sqrt_pos.mpr hpos
  have hsne : Real.sqrt (s2:ℝ) ≠ 0 := ne_of_gt hs
  have hnR : ((l.length : ℝ)) ≠ 0 := by
    have hp : 0 < l.length := by omega
    positivity
  have hmean : popMeanR (zReals l) = 0 := by
    rw [zReals_eq hs2 h0, popMeanR, List.length_map]
    rw [sum_map_div_real l (fun v : ℚ => (v:ℝ) - (listMean l : ℝ)) (Real.sqrt (s2:ℝ))]
    rw [sum_map_sub_real l ((listMean l : ℚ) : ℝ)]
    have hm : ((listMean l : ℚ) : ℝ) = ((l.sum : ℚ) : ℝ) / (l.length : ℝ) := by
      rw [listMean]
      push_cast
      ring
    rw [hm]
    field_simp
  refine ⟨hmean, ?_⟩
  rw [sampleVarR, hmean]
  simp only [sub_zero]
  rw [zReals_eq hs2 h0, List.length_map, List.map_map]
  have hcomp : ((fun x : ℝ => x ^ 2) ∘ fun v : ℚ => ((v:ℝ) - (listMean l : ℝ)) / Real.sqrt (s2:ℝ))
      = fun v : ℚ => (((v:ℝ) - (listMean l : ℝ)) ^ 2) / (s2:ℝ) := by
    funext v
    simp only [Function.comp]
    rw [div_pow, hsq]
  rw [hcomp]
  rw [sum_map_div_real l (fun v : ℚ => ((v:ℝ) - (listMean l : ℝ)) ^ 2) ((s2:ℝ))]
  rw [sum_map_sq_cast l (listMean l)]
  have hSS : (l.map fun x => (x - listMean l) ^ 2).sum = s2 * ((l.length : ℚ) - 1) := by
    have he := sampleVar_eq hs2
    have hq : ((l.length : ℚ) - 1) ≠ 0 := by
      have h2 : (2:ℚ) ≤ (l.length : ℚ) := by exact_mod_cast hlen
      intro hc
      rw [sub_eq_zero] at hc
      rw [hc] at h2
      norm_num at h2
    field_simp at he
    linarith [he]
  rw [hSS]
  have hl1 : ((l.length : ℝ) - 1) ≠ 0 := by
    have h2 : (2:ℝ) ≤ (l.length : ℝ) := by exact_mod_cast hlen
    intro hc
    rw [sub_eq_zero] at hc
    rw [hc] at h2
    norm_num at h2
  have hs2ne : (s2 : ℝ) ≠ 0 := ne_of_gt hpos
  push_cast
  field_simp

/-- Claim C7 counterexample: retailer "A" of `dataC7` has two records
with CTR values 0 and 2 (sample variance 2, z-scores ∓1/√2); the
population variance of those z-scores is 1/2, so their population
standard deviation is √(1/2) < 3/4 — far from ≈ 1 under any
floating-point tolerance.  (Their sample standard deviation is 1.) -/
theorem C7_counterexample :
    popVarR (zReals (groupVals (dataC7.filter fun r => r.retailer = "A") Metric.CTR)) = 1/2 ∧
      Real.sqrt (popVarR (zReals (groupVals (dataC7.filter fun r => r.retailer = "A") Metric.CTR)))
        < 3/4 := by
  have hl : groupVals (dataC7.filter fun r => r.retailer = "A") Metric.CTR = [0, 2] := by
    norm_num [dataC7, groupVals, metricVal, List.filter_cons, List.filterMap_cons]
  have hvar : sampleVar [(0:ℚ), 2] = some 2 := by
    norm_num [sampleVar, listMean, List.map_cons, List.sum_cons]
  have hmean : listMean [(0:ℚ), 2] = 1 := by
    norm_num [listMean, List.sum_cons]
  have hz : zReals [(0:ℚ), 2]
      = [((-1 : ℝ)) / Real.sqrt 2, (1 : ℝ) / Real.sqrt 2] := by
    rw [zReals_eq hvar (by norm_num), hmean]
    norm_num [List.map_cons]
  have hsq : Real.sqrt 2 ^ 2 = 2 := Real.sq_sqrt (by norm_num)
  have hsne : Real.sqrt 2 ≠ 0 := by
    have hp : (0:ℝ) < Real.sqrt 2 := Real.sqrt_pos.mpr (by norm_num)
    exact ne_of_gt hp
  have hm0 : popMeanR [((-1 : ℝ)) / Real.sqrt 2, (1 : ℝ) / Real.sqrt 2] = 0 := by
    rw [popMeanR]
    simp [List.sum_cons]
    ring_nf
  have hv2 : popVarR [((-1 : ℝ)) / Real.sqrt 2, (1 : ℝ) / Real.sqrt 2] = 1/2 := by
    rw [popVarR, hm0]
    simp only [sub_zero, List.map_cons, List.map_nil, List.sum_cons, List.sum_nil,
      List.length_cons, List.length_nil]
    rw [div_pow, div_pow, hsq]
    norm_num
  refine ⟨by rw [hl, hz, hv2], ?_⟩
  rw [hl, hz, hv2]
  rw [show (3:ℝ)/4 = Real.sqrt ((3/4)^2) from (Real.sqrt_sq (by norm_num)).symm]
  apply Real.sqrt_lt_sqrt (by norm_num)
  norm_num

/-- Claim C7 (amended): within any retailer partition with a defined
nonzero sample variance for a metric, the per-record z-scores have
population mean exactly 0, and their SAMPLE variance (ddof = 1, the
same divisor the code's std uses) is exactly 1; the population standard
deviation is instead √((n-1)/n), which the counterexample shows can be
far from 1. -/
theorem C7_amended_zscore_moments (data : List Record) (R : String) (m : Metric) (s2 : ℚ)
    (hs2 : sampleVar (groupVals (data.filter fun r => r.retailer = R) m) = some s2)
    (h0 : s2 ≠ 0) :
    popMeanR (zReals (groupVals (data.filter fun r => r.retailer = R) m)) = 0 ∧
      sampleVarR (zReals (groupVals (data.filter fun r => r.retailer = R) m)) = 1 :=
  zmoments hs2 h0

/-- Witness for C7 (amended) on retailer "A" of `dataA` (CTR column
1, 2, 3: sample variance 1). -/
theorem C7_witness :
    popMeanR (zReals (groupVals (dataA.filter fun r => r.retailer = "A") Metric.CTR)) = 0 ∧
      sampleVarR (zReals (groupVals (dataA.filter fun r => r.retailer = "A") Metric.CTR)) = 1 :=
  C7_amended_zscore_moments dataA "A" Metric.CTR 1
    (by norm_num [dataA, recA1, recA2, recA3, groupVals, sampleVar, listMean, metricVal,
      List.filter_cons, List.filterMap_cons])
    (by norm_num)
